import Mathlib

/-!
Batch object deletion of the storage gateway.

A shallow embedding of `gateway/operations/deleteobjects.go`: the two methods of
`DeleteObjects`, `RequiredPermissions` and `Handle`, together with the data they touch.

Conventions of the embedding.

* A Go `error` is a value of `Option GoError`; `none` is `nil`.
* A Go slice that the code tests against `nil` or leaves unset is a `Slice`, an
  `Option (List _)` in which `none` is the nil slice.  Slices that are only ranged over
  are plain lists.
* Everything the handler does to the outside world is appended, in program order, to a
  list of `Event`s; the store itself is a state of an arbitrary type `σ` that the
  `DeleteObject` call threads.
* Functions of other packages whose code is not part of this file (`DecodeXMLBody`,
  `path.ResolvePath`, `Index.DeleteObject`, `permissions.ObjectArn`) are fields of an
  environment and are left arbitrary.
-/

set_option autoImplicit false

namespace Gateway

/-! ## Values of the Go runtime -/

/-- Go error value, reduced to what this handler observes of it: the text printed by the
`%s` verb and the answer of `errors.Is(err, db.ErrNotFound)`. -/
structure GoError where
  text : String
  isNotFound : Bool
deriving DecidableEq, Repr

/-- Go slice for which the nil slice matters: `none` is nil. -/
abbrev Slice (α : Type) := Option (List α)

/-- The elements of a slice, `len` and `range` see a nil slice as empty. -/
def Slice.items {α : Type} : Slice α → List α
  | none => []
  | some xs => xs

/-- Go `len` on a slice. -/
def Slice.len {α : Type} (s : Slice α) : Nat := s.items.length

/-- Byte stream behind `http.Request.Body`: the bytes not read yet, the error the stream
reports in place of end-of-file once they are exhausted, and whether `Close` was called. -/
structure Reader where
  pending : List Nat
  fault : Option GoError
  closed : Bool
deriving DecidableEq, Repr

/-- Go `bytes.NewReader(b)`, also under `ioutil.NopCloser`, whose `Close` does nothing. -/
def bytesNewReader (b : List Nat) : Reader :=
  { pending := b, fault := none, closed := false }

/-- Go `ioutil.ReadAll`: drains the stream and returns the bytes read together with the
stream's error, if it has one. -/
def ioutilReadAll (r : Reader) : Reader × List Nat × Option GoError :=
  ({ r with pending := [] }, r.pending, r.fault)

/-- Go `Close` on a request body. -/
def Reader.close (r : Reader) : Reader := { r with closed := true }

/-- Go `http.StatusOK`. -/
def StatusOK : Nat := 200

/-! ## Data model (`serde`, `path`, `permissions`, `gerrors`) -/

namespace serde

/-- One element of `Delete.Object`. -/
structure ObjectIdentifier where
  Key : String
deriving DecidableEq, Repr

/-- The decoded request document. -/
structure Delete where
  Object : List ObjectIdentifier
  Quiet : Bool
deriving DecidableEq, Repr

/-- The value of `&serde.Delete{}`. -/
def Delete.zero : Delete := { Object := [], Quiet := false }

/-- Per-key failure entry of the response. -/
structure DeleteError where
  Code : String
  Key : String
  Message : String
deriving DecidableEq, Repr

/-- Per-key success entry of the response. -/
structure Deleted where
  Key : String
deriving DecidableEq, Repr

/-- The response document. -/
structure DeleteResult where
  Deleted : Slice serde.Deleted
  Error : Slice serde.DeleteError
deriving DecidableEq, Repr

end serde

namespace path

/-- Result of `path.ResolvePath`. -/
structure ResolvedPath where
  Ref : String
  Path : String
deriving DecidableEq, Repr

end path

namespace permissions

/-- One required authorization assertion. -/
structure Permission where
  Action : String
  Resource : String
deriving DecidableEq, Repr

end permissions

namespace gerrors

/-- Codes of the gateway error table used by this handler. -/
inductive APIErrorCode where
  | ErrBadRequest
deriving DecidableEq, Repr

end gerrors

/-! ## Effects -/

/-- Severity of a log line. -/
inductive LogLevel where
  | debug
  | error
deriving DecidableEq, Repr

/-- What the handler does to the outside world, one constructor per kind of call. -/
inductive Event where
  | incr (metric : String)
  | resolvePath (key : String)
  | deleteObject (repoId ref path : String)
  | log (level : LogLevel) (key : String) (message : String) (cause : Option GoError)
  | encodeError (code : gerrors.APIErrorCode)
  | encodeResponse (resp : serde.DeleteResult) (status : Nat)
deriving DecidableEq, Repr

/-- The functions of other packages the two methods call. -/
structure Env (σ : Type) where
  /-- `DecodeXMLBody(reader, req)`: the stream after the call, the request structure as the
  decoder left it, and the error. -/
  DecodeXMLBody : Reader → serde.Delete → Reader × serde.Delete × Option GoError
  /-- `path.ResolvePath(key)`. -/
  ResolvePath : String → Except GoError path.ResolvedPath
  /-- `Index.DeleteObject(repoId, ref, path)` on a store in state `σ`. -/
  DeleteObject : σ → String → String → String → σ × Option GoError

/-- The constants and functions of package `permissions` used by `RequiredPermissions`. -/
structure PermEnv where
  DeleteObjectAction : String
  ObjectArn : String → String → String

/-- Go `http.Request`, its body only. -/
structure Request where
  Body : Reader
deriving DecidableEq, Repr

/-- The repository the operation runs on. -/
structure Repo where
  Id : String
deriving DecidableEq, Repr

/-- The operation context handed to `Handle`. -/
structure RepoOperation (σ : Type) where
  Request : Request
  Repo : Repo
  Index : σ

/-! ## `RequiredPermissions` -/

/-- The method `DeleteObjects.RequiredPermissions`: the request as it is left and the pair
of results. -/
def RequiredPermissions {σ : Type} (env : Env σ) (penv : PermEnv) (request : Request)
    (repoId : String) : Request × Slice permissions.Permission × Option GoError :=
  let req := serde.Delete.zero
  let rd := ioutilReadAll request.Body
  let body := rd.2.1
  match rd.2.2 with
  | some err => ({ Body := rd.1 }, none, some err)
  | none =>
    let request1 : Request := { Body := rd.1.close }
    let dec := env.DecodeXMLBody (bytesNewReader body) req
    match dec.2.2 with
    | some err => (request1, none, some err)
    | none =>
      let request2 : Request := { Body := bytesNewReader body }
      let perms := dec.2.1.Object.map fun object =>
        ({ Action := penv.DeleteObjectAction,
           Resource := penv.ObjectArn repoId object.Key } : permissions.Permission)
      (request2, some perms, none)

/-! ## `Handle` -/

/-- The variables the per-key loop of `Handle` updates. -/
structure LoopState (σ : Type) where
  index : σ
  trace : List Event
  errs : List serde.DeleteError
  responses : List serde.Deleted

/-- Go `fmt.Sprintf("error deleting object: %s", err)`. -/
def deleteErrorMessage (err : GoError) : String :=
  "error deleting object: " ++ err.text

/-- One iteration of the loop `for _, obj := range req.Object` of `Handle`. -/
def handleObject {σ : Type} (env : Env σ) (repoId : String) (quiet : Bool)
    (st : LoopState σ) (obj : serde.ObjectIdentifier) : LoopState σ :=
  let st1 := { st with trace := st.trace ++ [Event.resolvePath obj.Key] }
  match env.ResolvePath obj.Key with
  | .error err =>
    { st1 with errs := st1.errs ++ [{ Code := "ErrDeletingKey", Key := obj.Key,
                                       Message := deleteErrorMessage err }] }
  | .ok resolvedPath =>
    let r := env.DeleteObject st1.index repoId resolvedPath.Ref resolvedPath.Path
    let st2 := { st1 with
      index := r.1,
      trace := st1.trace ++ [Event.deleteObject repoId resolvedPath.Ref resolvedPath.Path] }
    match r.2 with
    | some err =>
      if !err.isNotFound then
        { st2 with
          trace := st2.trace ++
            [Event.log LogLevel.error obj.Key "failed deleting object" (some err)],
          errs := st2.errs ++ [{ Code := "ErrDeletingKey", Key := obj.Key,
                                 Message := deleteErrorMessage err }] }
      else
        let st3 := { st2 with
          trace := st2.trace ++
            [Event.log LogLevel.debug obj.Key "tried to delete a non-existent object" none] }
        if !quiet then { st3 with responses := st3.responses ++ [{ Key := obj.Key }] }
        else st3
    | none =>
      let st3 := { st2 with
        trace := st2.trace ++
          [Event.log LogLevel.debug obj.Key "object set for deletion" none] }
      if !quiet then { st3 with responses := st3.responses ++ [{ Key := obj.Key }] }
      else st3

/-- The whole loop of `Handle`, from a given state of its variables. -/
def handleLoop {σ : Type} (env : Env σ) (repoId : String) (quiet : Bool)
    (st : LoopState σ) (objects : List serde.ObjectIdentifier) : LoopState σ :=
  objects.foldl (handleObject env repoId quiet) st

/-- The lines of `Handle` under `// construct response`. -/
def constructResponse (quiet : Bool) (errs : List serde.DeleteError)
    (responses : List serde.Deleted) : serde.DeleteResult :=
  let resp : serde.DeleteResult := { Deleted := none, Error := none }
  let resp := if errs.length > 0 then { resp with Error := some errs } else resp
  let resp := if !quiet && responses.length > 0 then { resp with Deleted := some responses }
    else resp
  resp

/-- What a run of `Handle` leaves behind. -/
structure HandleResult (σ : Type) where
  /-- The request body after the decoder has read it. -/
  body : Reader
  /-- The request structure `req` after `DecodeXMLBody`. -/
  req : serde.Delete
  /-- The error of `DecodeXMLBody`. -/
  decodeErr : Option GoError
  /-- The store after the run. -/
  index : σ
  /-- The local `errs` at the end of the loop. -/
  errs : List serde.DeleteError
  /-- The local `responses` at the end of the loop. -/
  responses : List serde.Deleted
  /-- The local `resp` handed to `EncodeResponse`. -/
  resp : serde.DeleteResult
  /-- Every effect of the run, in program order. -/
  trace : List Event

/-- The method `DeleteObjects.Handle`. -/
def Handle {σ : Type} (env : Env σ) (o : RepoOperation σ) : HandleResult σ :=
  let t0 := [Event.incr "delete_objects"]
  let dec := env.DecodeXMLBody o.Request.Body serde.Delete.zero
  let req := dec.2.1
  let t1 := match dec.2.2 with
    | some _ => t0 ++ [Event.encodeError gerrors.APIErrorCode.ErrBadRequest]
    | none => t0
  let st := handleLoop env o.Repo.Id req.Quiet
    { index := o.Index, trace := t1, errs := [], responses := [] } req.Object
  let resp := constructResponse req.Quiet st.errs st.responses
  { body := dec.1, req := req, decodeErr := dec.2.2, index := st.index,
    errs := st.errs, responses := st.responses, resp := resp,
    trace := st.trace ++ [Event.encodeResponse resp StatusOK] }

/-! ## Observations on a run

What the claims speak of but the code does not name: the answers the resolver and the
store give along a run, and the projections of the effect list. -/

/-- The answer the environment gives for one key: the resolver refuses it, the store fails
on it, the store reports it absent, or the store deletes it. -/
inductive Outcome where
  | resolveFailed (err : GoError)
  | storeFailed (err : GoError)
  | absent (err : GoError)
  | deleted
deriving DecidableEq, Repr

/-- A key whose processing succeeded: the store answered success or not-found. -/
def Outcome.succeeded : Outcome → Bool
  | .absent _ => true
  | .deleted => true
  | _ => false

/-- The cause of a failed key. -/
def Outcome.cause : Outcome → Option GoError
  | .resolveFailed err => some err
  | .storeFailed err => some err
  | _ => none

/-- Reading of a store answer: `nil`, an error that is not-found, any other error. -/
def Outcome.ofStore : Option GoError → Outcome
  | none => .deleted
  | some err => if err.isNotFound then .absent err else .storeFailed err

/-- The answer of the environment for one key on a store in state `s`, and the store after
it. The store is asked only when the key resolves. -/
def outcomeAt {σ : Type} (env : Env σ) (repoId : String) (s : σ)
    (obj : serde.ObjectIdentifier) : Outcome × σ :=
  match env.ResolvePath obj.Key with
  | .error err => (.resolveFailed err, s)
  | .ok rp =>
    let r := env.DeleteObject s repoId rp.Ref rp.Path
    (Outcome.ofStore r.2, r.1)

/-- The answers of the environment for the keys of a request taken in order, the store
call of each resolving key acting on the store the earlier ones left. -/
def keyOutcomes {σ : Type} (env : Env σ) (repoId : String) :
    σ → List serde.ObjectIdentifier → List (serde.ObjectIdentifier × Outcome)
  | _, [] => []
  | s, obj :: rest =>
    (obj, (outcomeAt env repoId s obj).1) ::
      keyOutcomes env repoId (outcomeAt env repoId s obj).2 rest

/-- The store after the keys of a request were taken in order. -/
def storeAfter {σ : Type} (env : Env σ) (repoId : String) :
    σ → List serde.ObjectIdentifier → σ
  | s, [] => s
  | s, obj :: rest => storeAfter env repoId (outcomeAt env repoId s obj).2 rest

/-- The error entry owed to a key occurrence, when its outcome is a failure. -/
def errorEntry (p : serde.ObjectIdentifier × Outcome) : Option serde.DeleteError :=
  p.2.cause.map fun err =>
    { Code := "ErrDeletingKey", Key := p.1.Key, Message := deleteErrorMessage err }

/-- The success entry owed to a key occurrence, when its outcome is a success. -/
def deletedEntry (p : serde.ObjectIdentifier × Outcome) : Option serde.Deleted :=
  if p.2.succeeded then some { Key := p.1.Key } else none

/-- The outcomes of the run of `Handle` on `o`: those of the keys the decoder left in the
request structure, against the store of the operation. -/
def runOutcomes {σ : Type} (env : Env σ) (o : RepoOperation σ) :
    List (serde.ObjectIdentifier × Outcome) :=
  keyOutcomes env o.Repo.Id o.Index
    (env.DecodeXMLBody o.Request.Body serde.Delete.zero).2.1.Object

/-- The number of keys of a run whose processing succeeded. -/
def succeededCount (ps : List (serde.ObjectIdentifier × Outcome)) : Nat :=
  ps.countP fun p => p.2.succeeded

/-- The number of keys of a run whose processing failed. -/
def failedCount (ps : List (serde.ObjectIdentifier × Outcome)) : Nat :=
  ps.countP fun p => !p.2.succeeded

/-- An event that writes a response to the client. -/
def Event.isResponse : Event → Bool
  | .encodeError _ => true
  | .encodeResponse _ _ => true
  | _ => false

/-- The responses written during a run, in order. -/
def responsesWritten (t : List Event) : List Event := t.filter Event.isResponse

/-- The arguments of a call to `Index.DeleteObject`, if the event is one. -/
def Event.deleteCall : Event → Option (String × String × String)
  | .deleteObject repoId ref path => some (repoId, ref, path)
  | _ => none

/-- The calls to `Index.DeleteObject` made during a run, in order. -/
def deleteCalls (t : List Event) : List (String × String × String) :=
  t.filterMap Event.deleteCall

/-- The key of a call to `path.ResolvePath`, if the event is one. -/
def Event.resolveCall : Event → Option String
  | .resolvePath key => some key
  | _ => none

/-- The keys handed to `path.ResolvePath` during a run, in order. -/
def resolveCalls (t : List Event) : List String := t.filterMap Event.resolveCall

/-- The store call owed to a key: its resolved reference and path under the repository,
or none when the key does not resolve. -/
def callOf {σ : Type} (env : Env σ) (repoId : String) (obj : serde.ObjectIdentifier) :
    Option (String × String × String) :=
  match env.ResolvePath obj.Key with
  | .error _ => none
  | .ok rp => some (repoId, rp.Ref, rp.Path)

/-! ## A small concrete environment

A toy wire format, resolver and store on which the definitions can be evaluated. -/

/-- Key named by a byte of the toy wire format. -/
def sampleKey : Nat → String
  | 1 => "a"
  | 2 => "b"
  | 3 => "c"
  | _ => ""

/-- Toy decoder over the bytes of a body: `0` sets the quiet flag, `9` is a syntax error
that stops decoding and leaves what was decoded so far, any other byte adds a key. -/
def sampleDecodeBytes : List Nat → serde.Delete → serde.Delete × Option GoError
  | [], req => (req, none)
  | b :: rest, req =>
    if b = 0 then sampleDecodeBytes rest { req with Quiet := true }
    else if b = 9 then (req, some { text := "XML syntax error", isNotFound := false })
    else sampleDecodeBytes rest { req with Object := req.Object ++ [{ Key := sampleKey b }] }

/-- Toy `DecodeXMLBody`: reads the stream to its end, fails with the error of the stream
if it has one, else decodes the bytes. -/
def sampleDecode (r : Reader) (req : serde.Delete) :
    Reader × serde.Delete × Option GoError :=
  match r.fault with
  | some err => ({ r with pending := [] }, req, some err)
  | none => ({ r with pending := [] }, sampleDecodeBytes r.pending req)

/-- Toy resolver: the empty key does not resolve, any other key is a path of `master`. -/
def sampleResolve (key : String) : Except GoError path.ResolvedPath :=
  if key = "" then .error { text := "malformed key", isNotFound := false }
  else .ok { Ref := "master", Path := key }

/-- Toy store over the list of paths it holds: path `c` cannot be deleted, a path that
is held is removed, a path that is not held is reported not-found. -/
def sampleDelete (s : List String) (_repoId _ref path : String) :
    List String × Option GoError :=
  if path = "c" then (s, some { text := "store unavailable", isNotFound := false })
  else if path ∈ s then (s.erase path, none)
  else (s, some { text := "not found", isNotFound := true })

/-- The toy environment. -/
def sampleEnv : Env (List String) :=
  { DecodeXMLBody := sampleDecode, ResolvePath := sampleResolve, DeleteObject := sampleDelete }

/-- The toy permission constants. -/
def samplePermEnv : PermEnv :=
  { DeleteObjectAction := "delete-object", ObjectArn := fun repoId key => repoId ++ "/" ++ key }

/-- An operation on repository `repo` whose body holds the given bytes and whose store
holds paths `a` and `b`. -/
def sampleOp (bytes : List Nat) : RepoOperation (List String) :=
  { Request := { Body := bytesNewReader bytes }, Repo := { Id := "repo" }, Index := ["a", "b"] }

/-! ## The loop, key by key -/

/-- One iteration leaves the store as the environment's answer for the key leaves it. -/
theorem handleObject_index {σ : Type} (env : Env σ) (repoId : String) (quiet : Bool)
    (st : LoopState σ) (obj : serde.ObjectIdentifier) :
    (handleObject env repoId quiet st obj).index = (outcomeAt env repoId st.index obj).2 := by
  unfold handleObject outcomeAt
  cases env.ResolvePath obj.Key with
  | error err => rfl
  | ok rp =>
    dsimp only
    cases (env.DeleteObject st.index repoId rp.Ref rp.Path).2 with
    | none => cases quiet <;> rfl
    | some err =>
      rcases err with ⟨t, nf⟩
      cases quiet <;> cases nf <;> rfl

/-- One iteration appends to `errs` the error entry of the key, if its outcome owes one. -/
theorem handleObject_errs {σ : Type} (env : Env σ) (repoId : String) (quiet : Bool)
    (st : LoopState σ) (obj : serde.ObjectIdentifier) :
    (handleObject env repoId quiet st obj).errs =
      st.errs ++ (errorEntry (obj, (outcomeAt env repoId st.index obj).1)).toList := by
  unfold handleObject outcomeAt
  cases env.ResolvePath obj.Key with
  | error err => rfl
  | ok rp =>
    dsimp only
    cases (env.DeleteObject st.index repoId rp.Ref rp.Path).2 with
    | none => cases quiet <;> simp [errorEntry, Outcome.ofStore, Outcome.cause]
    | some err =>
      rcases err with ⟨t, nf⟩
      cases quiet <;> cases nf <;> simp [errorEntry, Outcome.ofStore, Outcome.cause]

/-- One iteration appends to `responses` the success entry of the key, if its outcome owes
one and the request is not quiet. -/
theorem handleObject_responses {σ : Type} (env : Env σ) (repoId : String) (quiet : Bool)
    (st : LoopState σ) (obj : serde.ObjectIdentifier) :
    (handleObject env repoId quiet st obj).responses =
      st.responses ++
        (if quiet then [] else (deletedEntry (obj, (outcomeAt env repoId st.index obj).1)).toList) := by
  unfold handleObject outcomeAt
  cases env.ResolvePath obj.Key with
  | error err => cases quiet <;> simp [deletedEntry, Outcome.succeeded]
  | ok rp =>
    dsimp only
    cases (env.DeleteObject st.index repoId rp.Ref rp.Path).2 with
    | none => cases quiet <;> simp [deletedEntry, Outcome.ofStore, Outcome.succeeded]
    | some err =>
      rcases err with ⟨t, nf⟩
      cases quiet <;> cases nf <;> simp [deletedEntry, Outcome.ofStore, Outcome.succeeded]

/-- One iteration writes no response. -/
theorem handleObject_responsesWritten {σ : Type} (env : Env σ) (repoId : String)
    (quiet : Bool) (st : LoopState σ) (obj : serde.ObjectIdentifier) :
    responsesWritten (handleObject env repoId quiet st obj).trace =
      responsesWritten st.trace := by
  unfold handleObject
  cases env.ResolvePath obj.Key with
  | error err => simp [responsesWritten, Event.isResponse]
  | ok rp =>
    dsimp only
    cases (env.DeleteObject st.index repoId rp.Ref rp.Path).2 with
    | none => cases quiet <;> simp [responsesWritten, Event.isResponse]
    | some err =>
      rcases err with ⟨t, nf⟩
      cases quiet <;> cases nf <;> simp [responsesWritten, Event.isResponse]

/-- The effects of one iteration do not depend on the quiet flag. -/
theorem handleObject_trace_quiet {σ : Type} (env : Env σ) (repoId : String)
    (st st2 : LoopState σ) (obj : serde.ObjectIdentifier)
    (hi : st.index = st2.index) (ht : st.trace = st2.trace) :
    (handleObject env repoId true st obj).trace =
      (handleObject env repoId false st2 obj).trace := by
  unfold handleObject
  rw [hi, ht]
  cases env.ResolvePath obj.Key with
  | error err => rfl
  | ok rp =>
    dsimp only
    cases (env.DeleteObject st2.index repoId rp.Ref rp.Path).2 with
    | none => rfl
    | some err =>
      rcases err with ⟨t, nf⟩
      cases nf <;> rfl

/-! ## The loop as a whole -/

/-- The loop over a non-empty list is one iteration followed by the loop over the rest. -/
theorem handleLoop_cons {σ : Type} (env : Env σ) (repoId : String) (quiet : Bool)
    (st : LoopState σ) (obj : serde.ObjectIdentifier) (rest : List serde.ObjectIdentifier) :
    handleLoop env repoId quiet st (obj :: rest) =
      handleLoop env repoId quiet (handleObject env repoId quiet st obj) rest := rfl

/-- The loop leaves the store as the answers of the environment leave it. -/
theorem handleLoop_index {σ : Type} (env : Env σ) (repoId : String) (quiet : Bool)
    (objects : List serde.ObjectIdentifier) (st : LoopState σ) :
    (handleLoop env repoId quiet st objects).index = storeAfter env repoId st.index objects := by
  induction objects generalizing st with
  | nil => rfl
  | cons obj rest ih =>
    rw [handleLoop_cons, ih, handleObject_index]
    rfl

/-- The loop appends to `errs`, in request order, the error entries of the failed keys. -/
theorem handleLoop_errs {σ : Type} (env : Env σ) (repoId : String) (quiet : Bool)
    (objects : List serde.ObjectIdentifier) (st : LoopState σ) :
    (handleLoop env repoId quiet st objects).errs =
      st.errs ++ (keyOutcomes env repoId st.index objects).filterMap errorEntry := by
  induction objects generalizing st with
  | nil => simp [handleLoop, keyOutcomes]
  | cons obj rest ih =>
    rw [handleLoop_cons, ih, handleObject_errs, handleObject_index]
    cases h : errorEntry (obj, (outcomeAt env repoId st.index obj).1) <;>
      simp [keyOutcomes, List.filterMap_cons, h]

/-- The loop appends to `responses`, in request order, the success entries of the
succeeded keys, or nothing when the request is quiet. -/
theorem handleLoop_responses {σ : Type} (env : Env σ) (repoId : String) (quiet : Bool)
    (objects : List serde.ObjectIdentifier) (st : LoopState σ) :
    (handleLoop env repoId quiet st objects).responses =
      st.responses ++
        (if quiet then [] else (keyOutcomes env repoId st.index objects).filterMap deletedEntry) := by
  induction objects generalizing st with
  | nil => cases quiet <;> simp [handleLoop, keyOutcomes]
  | cons obj rest ih =>
    rw [handleLoop_cons, ih, handleObject_responses, handleObject_index]
    cases quiet
    · cases h : deletedEntry (obj, (outcomeAt env repoId st.index obj).1) <;>
        simp [keyOutcomes, List.filterMap_cons, h]
    · simp

/-- The loop writes no response. -/
theorem handleLoop_responsesWritten {σ : Type} (env : Env σ) (repoId : String)
    (quiet : Bool) (objects : List serde.ObjectIdentifier) (st : LoopState σ) :
    responsesWritten (handleLoop env repoId quiet st objects).trace =
      responsesWritten st.trace := by
  induction objects generalizing st with
  | nil => rfl
  | cons obj rest ih => rw [handleLoop_cons, ih, handleObject_responsesWritten]

/-- The effects of the loop do not depend on the quiet flag. -/
theorem handleLoop_trace_quiet {σ : Type} (env : Env σ) (repoId : String)
    (objects : List serde.ObjectIdentifier) (st st2 : LoopState σ)
    (hi : st.index = st2.index) (ht : st.trace = st2.trace) :
    (handleLoop env repoId true st objects).trace =
      (handleLoop env repoId false st2 objects).trace := by
  induction objects generalizing st st2 with
  | nil => exact ht
  | cons obj rest ih =>
    rw [handleLoop_cons, handleLoop_cons]
    apply ih
    · rw [handleObject_index, handleObject_index, hi]
    · exact handleObject_trace_quiet env repoId st st2 obj hi ht

/-! ## Counting entries -/

/-- A key occurrence owes an error entry exactly when it did not succeed. -/
theorem errorEntry_isSome (p : serde.ObjectIdentifier × Outcome) :
    (errorEntry p).isSome = !p.2.succeeded := by
  rcases p with ⟨k, oc⟩
  cases oc <;> rfl

/-- A key occurrence owes a success entry exactly when it succeeded. -/
theorem deletedEntry_isSome (p : serde.ObjectIdentifier × Outcome) :
    (deletedEntry p).isSome = p.2.succeeded := by
  rcases p with ⟨k, oc⟩
  cases oc <;> rfl

/-- There are as many error entries as failed keys. -/
theorem length_filterMap_errorEntry (ps : List (serde.ObjectIdentifier × Outcome)) :
    (ps.filterMap errorEntry).length = failedCount ps := by
  induction ps with
  | nil => rfl
  | cons p rest ih =>
    have h := errorEntry_isSome p
    unfold failedCount at *
    cases he : errorEntry p <;> cases hs : p.2.succeeded <;>
      simp_all [List.filterMap_cons, List.countP_cons]

/-- There are as many success entries as succeeded keys. -/
theorem length_filterMap_deletedEntry (ps : List (serde.ObjectIdentifier × Outcome)) :
    (ps.filterMap deletedEntry).length = succeededCount ps := by
  induction ps with
  | nil => rfl
  | cons p rest ih =>
    have h := deletedEntry_isSome p
    unfold succeededCount at *
    cases he : deletedEntry p <;> cases hs : p.2.succeeded <;>
      simp_all [List.filterMap_cons, List.countP_cons]

/-- Every key of a request has one outcome. -/
theorem length_keyOutcomes {σ : Type} (env : Env σ) (repoId : String)
    (objects : List serde.ObjectIdentifier) (s : σ) :
    (keyOutcomes env repoId s objects).length = objects.length := by
  induction objects generalizing s with
  | nil => rfl
  | cons obj rest ih => simp [keyOutcomes, ih]

/-- Every key either succeeded or failed. -/
theorem succeededCount_add_failedCount (ps : List (serde.ObjectIdentifier × Outcome)) :
    succeededCount ps + failedCount ps = ps.length := by
  induction ps with
  | nil => rfl
  | cons p rest ih =>
    unfold succeededCount failedCount at *
    cases hs : p.2.succeeded <;> simp [List.countP_cons, hs] <;> omega

/-! ## The response document -/

/-- The `Error` field holds the accumulated errors, and is nil when there are none. -/
theorem constructResponse_Error (quiet : Bool) (errs : List serde.DeleteError)
    (responses : List serde.Deleted) :
    (constructResponse quiet errs responses).Error = if errs = [] then none else some errs := by
  cases errs <;> cases responses <;> cases quiet <;> simp [constructResponse]

/-- The `Deleted` field holds the accumulated successes, and is nil when there are none or
the request is quiet. -/
theorem constructResponse_Deleted (quiet : Bool) (errs : List serde.DeleteError)
    (responses : List serde.Deleted) :
    (constructResponse quiet errs responses).Deleted =
      if quiet = true ∨ responses = [] then none else some responses := by
  cases errs <;> cases responses <;> cases quiet <;> simp [constructResponse]

/-- The entries of the `Error` field are the accumulated errors. -/
theorem constructResponse_Error_items (quiet : Bool) (errs : List serde.DeleteError)
    (responses : List serde.Deleted) :
    (constructResponse quiet errs responses).Error.items = errs := by
  rw [constructResponse_Error]
  cases errs <;> simp [Slice.items]

/-- The entries of the `Deleted` field are the accumulated successes, none when quiet. -/
theorem constructResponse_Deleted_items (quiet : Bool) (errs : List serde.DeleteError)
    (responses : List serde.Deleted) :
    (constructResponse quiet errs responses).Deleted.items =
      if quiet then [] else responses := by
  rw [constructResponse_Deleted]
  cases responses <;> cases quiet <;> simp [Slice.items]

/-! ## `Handle` in terms of the outcomes of its run -/

/-- The response of `Handle` is built from its two accumulated lists. -/
theorem Handle_resp {σ : Type} (env : Env σ) (o : RepoOperation σ) :
    (Handle env o).resp =
      constructResponse (Handle env o).req.Quiet (Handle env o).errs (Handle env o).responses :=
  rfl

/-- The accumulated errors of `Handle` are the error entries of the failed keys. -/
theorem Handle_errs {σ : Type} (env : Env σ) (o : RepoOperation σ) :
    (Handle env o).errs = (runOutcomes env o).filterMap errorEntry := by
  simp [Handle, runOutcomes, handleLoop_errs]

/-- The accumulated successes of `Handle` are the success entries of the succeeded keys,
none when the request is quiet. -/
theorem Handle_responses {σ : Type} (env : Env σ) (o : RepoOperation σ) :
    (Handle env o).responses =
      if (Handle env o).req.Quiet then [] else (runOutcomes env o).filterMap deletedEntry := by
  simp [Handle, runOutcomes, handleLoop_responses]

/-- Every key the decoder left in the request has one outcome. -/
theorem length_runOutcomes {σ : Type} (env : Env σ) (o : RepoOperation σ) :
    (runOutcomes env o).length = (Handle env o).req.Object.length := by
  simp [runOutcomes, Handle, length_keyOutcomes]

/-- When decoding succeeds `Handle` writes one response, the result with status 200. -/
theorem Handle_responsesWritten_of_decoded {σ : Type} (env : Env σ) (o : RepoOperation σ)
    (hdec : (Handle env o).decodeErr = none) :
    responsesWritten (Handle env o).trace =
      [Event.encodeResponse (Handle env o).resp StatusOK] := by
  have h : (env.DecodeXMLBody o.Request.Body serde.Delete.zero).2.2 = none := hdec
  simp only [Handle, h]
  simp [responsesWritten, List.filter_append, Event.isResponse]
  have := handleLoop_responsesWritten env o.Repo.Id
    (env.DecodeXMLBody o.Request.Body serde.Delete.zero).2.1.Quiet
    (env.DecodeXMLBody o.Request.Body serde.Delete.zero).2.1.Object
    { index := o.Index, trace := [Event.incr "delete_objects"], errs := [], responses := [] }
  simpa [responsesWritten, Event.isResponse] using this

/-- When decoding fails `Handle` writes two responses: the bad-request error, and then
the result with status 200. -/
theorem Handle_responsesWritten_of_decode_error {σ : Type} (env : Env σ)
    (o : RepoOperation σ) (err : GoError) (hdec : (Handle env o).decodeErr = some err) :
    responsesWritten (Handle env o).trace =
      [Event.encodeError gerrors.APIErrorCode.ErrBadRequest,
       Event.encodeResponse (Handle env o).resp StatusOK] := by
  have h : (env.DecodeXMLBody o.Request.Body serde.Delete.zero).2.2 = some err := hdec
  simp only [Handle, h]
  simp [responsesWritten, List.filter_append, Event.isResponse]
  have := handleLoop_responsesWritten env o.Repo.Id
    (env.DecodeXMLBody o.Request.Body serde.Delete.zero).2.1.Quiet
    (env.DecodeXMLBody o.Request.Body serde.Delete.zero).2.1.Object
    { index := o.Index,
      trace := [Event.incr "delete_objects",
                Event.encodeError gerrors.APIErrorCode.ErrBadRequest],
      errs := [], responses := [] }
  simp only [responsesWritten] at this
  rw [this]
  simp [Event.isResponse]

/-! ## Decode failure -/

/-- C1, evaluated on the code: on a body whose decoding fails after one key was decoded,
`Handle` writes the bad-request error and then goes on; it resolves the key the decoder
left, calls `Index.DeleteObject` for it, removes it from the store, and reports it as
deleted in a second response. -/
theorem Handle_decode_failure_processes_left_keys :
    (Handle sampleEnv (sampleOp [1, 9])).decodeErr =
        some { text := "XML syntax error", isNotFound := false } ∧
      (Handle sampleEnv (sampleOp [1, 9])).trace =
        [Event.incr "delete_objects",
         Event.encodeError gerrors.APIErrorCode.ErrBadRequest,
         Event.resolvePath "a",
         Event.deleteObject "repo" "master" "a",
         Event.log LogLevel.debug "a" "object set for deletion" none,
         Event.encodeResponse { Deleted := some [{ Key := "a" }], Error := none } 200] ∧
      (sampleOp [1, 9]).Index = ["a", "b"] ∧
      (Handle sampleEnv (sampleOp [1, 9])).index = ["b"] := by
  decide

/-- C2, evaluated on the code: on a body whose decoding fails at once, `Handle` writes
two responses, the bad-request error and after it an empty result with status 200. -/
theorem Handle_decode_failure_writes_two_responses :
    (Handle sampleEnv (sampleOp [9])).decodeErr =
        some { text := "XML syntax error", isNotFound := false } ∧
      responsesWritten (Handle sampleEnv (sampleOp [9])).trace =
        [Event.encodeError gerrors.APIErrorCode.ErrBadRequest,
         Event.encodeResponse { Deleted := none, Error := none } 200] := by
  decide

/-! ## Counting the entries of the result -/

/-- C3: for a successfully decoded request with N keys, when the request is not quiet the
lengths of `Deleted` and `Error` in the result add up to N, and when it is quiet the length
of `Error` and the number of keys whose processing succeeded add up to N. -/
theorem Handle_entry_count {σ : Type} (env : Env σ) (o : RepoOperation σ)
    (_hdec : (Handle env o).decodeErr = none) :
    ((Handle env o).req.Quiet = false →
        (Handle env o).resp.Deleted.len + (Handle env o).resp.Error.len =
          (Handle env o).req.Object.length) ∧
      ((Handle env o).req.Quiet = true →
        (Handle env o).resp.Error.len + succeededCount (runOutcomes env o) =
          (Handle env o).req.Object.length) := by
  have hE : (Handle env o).resp.Error.len = failedCount (runOutcomes env o) := by
    rw [Handle_resp]
    unfold Slice.len
    rw [constructResponse_Error_items, Handle_errs, length_filterMap_errorEntry]
  have hN := succeededCount_add_failedCount (runOutcomes env o)
  rw [length_runOutcomes] at hN
  constructor
  · intro hq
    have hD : (Handle env o).resp.Deleted.len = succeededCount (runOutcomes env o) := by
      rw [Handle_resp]
      unfold Slice.len
      rw [constructResponse_Deleted_items, Handle_responses, hq]
      simp [length_filterMap_deletedEntry]
    omega
  · intro _
    omega

/-- C3 on a non-quiet and on a quiet request of five keys, two of which fail. -/
theorem Handle_entry_count_witness :
    (Handle sampleEnv (sampleOp [1, 4, 3, 1, 2])).resp.Deleted.len +
        (Handle sampleEnv (sampleOp [1, 4, 3, 1, 2])).resp.Error.len = 5 ∧
      (Handle sampleEnv (sampleOp [0, 1, 4, 3, 1, 2])).resp.Error.len +
        succeededCount (runOutcomes sampleEnv (sampleOp [0, 1, 4, 3, 1, 2])) = 5 :=
  ⟨(Handle_entry_count sampleEnv (sampleOp [1, 4, 3, 1, 2]) (by decide)).1 (by decide),
   (Handle_entry_count sampleEnv (sampleOp [0, 1, 4, 3, 1, 2]) (by decide)).2 (by decide)⟩

/-! ## Two facts on `filterMap` -/

/-- Collecting from a function that always answers is mapping. -/
theorem filterMap_always {α β : Type} (f : α → β) (xs : List α) :
    xs.filterMap (fun x => some (f x)) = xs.map f := by
  induction xs with
  | nil => rfl
  | cons x xs ih => simp [List.filterMap_cons, ih]

/-- Collecting from a function that never answers gives nothing. -/
theorem filterMap_never {α β : Type} (xs : List α) :
    xs.filterMap (fun _ => (none : Option β)) = [] := by
  induction xs with
  | nil => rfl
  | cons x xs ih => simp [List.filterMap_cons, ih]

/-! ## Outcomes of a request split in two -/

/-- The store after two lists of keys is the store after the second, started from the
store after the first. -/
theorem storeAfter_append {σ : Type} (env : Env σ) (repoId : String)
    (pre rest : List serde.ObjectIdentifier) (s : σ) :
    storeAfter env repoId s (pre ++ rest) =
      storeAfter env repoId (storeAfter env repoId s pre) rest := by
  induction pre generalizing s with
  | nil => rfl
  | cons obj pre ih => simp [storeAfter, ih]

/-- The outcomes of two lists of keys are those of the first, followed by those of the
second on the store the first left. -/
theorem keyOutcomes_append {σ : Type} (env : Env σ) (repoId : String)
    (pre rest : List serde.ObjectIdentifier) (s : σ) :
    keyOutcomes env repoId s (pre ++ rest) =
      keyOutcomes env repoId s pre ++ keyOutcomes env repoId (storeAfter env repoId s pre) rest := by
  induction pre generalizing s with
  | nil => rfl
  | cons obj pre ih => simp [keyOutcomes, storeAfter, ih]

/-! ## A key that is already absent -/

/-- C4: take a key occurrence of the request that resolves and for which
`Index.DeleteObject`, called on the store as the keys before it left it, returns the
not-found error or no error. In both cases alike `Handle` adds no error entry for it, the
accumulated errors being those of the keys before and after it, and when the request is not
quiet the `Deleted` field lists its key in its place among the other successes. -/
theorem Handle_not_found_is_success {σ : Type} (env : Env σ) (o : RepoOperation σ)
    (pre post : List serde.ObjectIdentifier) (obj : serde.ObjectIdentifier)
    (rp : path.ResolvedPath)
    (hobj : (Handle env o).req.Object = pre ++ obj :: post)
    (hres : env.ResolvePath obj.Key = .ok rp)
    (hr : (env.DeleteObject (storeAfter env o.Repo.Id o.Index pre) o.Repo.Id rp.Ref rp.Path).2
            = none ∨
          ∃ err, (env.DeleteObject (storeAfter env o.Repo.Id o.Index pre)
                    o.Repo.Id rp.Ref rp.Path).2 = some err ∧ err.isNotFound = true) :
    (Handle env o).errs =
        (keyOutcomes env o.Repo.Id o.Index pre).filterMap errorEntry ++
          (keyOutcomes env o.Repo.Id
            (env.DeleteObject (storeAfter env o.Repo.Id o.Index pre)
              o.Repo.Id rp.Ref rp.Path).1 post).filterMap errorEntry ∧
      ((Handle env o).req.Quiet = false →
        (Handle env o).resp.Deleted = some
          ((keyOutcomes env o.Repo.Id o.Index pre).filterMap deletedEntry ++
            { Key := obj.Key } ::
            (keyOutcomes env o.Repo.Id
              (env.DeleteObject (storeAfter env o.Repo.Id o.Index pre)
                o.Repo.Id rp.Ref rp.Path).1 post).filterMap deletedEntry)) := by
  have hobj2 : (env.DecodeXMLBody o.Request.Body serde.Delete.zero).2.1.Object =
      pre ++ obj :: post := hobj
  have hsucc : (Outcome.ofStore (env.DeleteObject (storeAfter env o.Repo.Id o.Index pre)
      o.Repo.Id rp.Ref rp.Path).2).succeeded = true ∧
      (Outcome.ofStore (env.DeleteObject (storeAfter env o.Repo.Id o.Index pre)
      o.Repo.Id rp.Ref rp.Path).2).cause = none := by
    rcases hr with h | ⟨err, h, hnf⟩
    · rw [h]; exact ⟨rfl, rfl⟩
    · rw [h]; simp [Outcome.ofStore, hnf, Outcome.succeeded, Outcome.cause]
  have hrun : runOutcomes env o =
      keyOutcomes env o.Repo.Id o.Index pre ++
        (obj, Outcome.ofStore (env.DeleteObject (storeAfter env o.Repo.Id o.Index pre)
          o.Repo.Id rp.Ref rp.Path).2) ::
        keyOutcomes env o.Repo.Id
          (env.DeleteObject (storeAfter env o.Repo.Id o.Index pre)
            o.Repo.Id rp.Ref rp.Path).1 post := by
    unfold runOutcomes
    rw [hobj2, keyOutcomes_append]
    simp [keyOutcomes, outcomeAt, hres]
  constructor
  · rw [Handle_errs, hrun]
    simp [List.filterMap_append, List.filterMap_cons, errorEntry, hsucc.2]
  · intro hq
    rw [Handle_resp, constructResponse_Deleted, Handle_responses, hq, hrun]
    simp [List.filterMap_append, List.filterMap_cons, deletedEntry, hsucc.1]

/-- C4 on the request of keys a, the empty key, c, a, b against a store holding a and b:
the second occurrence of a is reported not found by the store. -/
theorem Handle_not_found_is_success_witness :
    (Handle sampleEnv (sampleOp [1, 4, 3, 1, 2])).errs =
        [{ Code := "ErrDeletingKey", Key := "",
           Message := "error deleting object: malformed key" },
         { Code := "ErrDeletingKey", Key := "c",
           Message := "error deleting object: store unavailable" }] ∧
      (Handle sampleEnv (sampleOp [1, 4, 3, 1, 2])).resp.Deleted =
        some [{ Key := "a" }, { Key := "a" }, { Key := "b" }] := by
  have h := Handle_not_found_is_success sampleEnv (sampleOp [1, 4, 3, 1, 2])
    [{ Key := "a" }, { Key := "" }, { Key := "c" }] [{ Key := "b" }] { Key := "a" }
    { Ref := "master", Path := "a" } (by decide) rfl
    (Or.inr ⟨{ text := "not found", isNotFound := true }, by decide, rfl⟩)
  exact ⟨h.1.trans (by decide), (h.2 (by decide)).trans (by decide)⟩

/-! ## Partial-failure isolation -/

/-- C5: in a successfully decoded, non-quiet request in which one key occurrence fails
resolution and every other key resolves and is deleted by the store without error, the
result has exactly one error entry, that of the failing key, and the `Deleted` field lists
every other key, those after the failing one included, in request order. -/
theorem Handle_isolates_resolution_failure {σ : Type} (env : Env σ) (o : RepoOperation σ)
    (pre post : List serde.ObjectIdentifier) (obj : serde.ObjectIdentifier) (err : GoError)
    (_hdec : (Handle env o).decodeErr = none)
    (hq : (Handle env o).req.Quiet = false)
    (hrun : runOutcomes env o =
      pre.map (fun k => (k, Outcome.deleted)) ++
        (obj, Outcome.resolveFailed err) :: post.map (fun k => (k, Outcome.deleted))) :
    (Handle env o).req.Object = pre ++ obj :: post ∧
      (Handle env o).resp.Error = some [{ Code := "ErrDeletingKey", Key := obj.Key,
                                          Message := "error deleting object: " ++ err.text }] ∧
      (Handle env o).resp.Deleted.items =
        (pre ++ post).map (fun k => ({ Key := k.Key } : serde.Deleted)) ∧
      (Handle env o).resp.Deleted.len = pre.length + post.length := by
  have hD : (Handle env o).resp.Deleted.items =
      (pre ++ post).map (fun k => ({ Key := k.Key } : serde.Deleted)) := by
    rw [Handle_resp, constructResponse_Deleted_items, Handle_responses, hq, hrun]
    simp [List.filterMap_append, List.filterMap_cons, List.filterMap_map, deletedEntry,
      Outcome.succeeded, Function.comp_def, filterMap_always]
  refine ⟨?_, ?_, hD, ?_⟩
  · have hk : (runOutcomes env o).map Prod.fst = (Handle env o).req.Object := by
      unfold runOutcomes
      generalize o.Index = s
      show _ = (env.DecodeXMLBody o.Request.Body serde.Delete.zero).2.1.Object
      generalize (env.DecodeXMLBody o.Request.Body serde.Delete.zero).2.1.Object = ks
      induction ks generalizing s with
      | nil => rfl
      | cons k ks ih => simp [keyOutcomes, ih]
    rw [← hk, hrun]
    simp [Function.comp_def]
  · rw [Handle_resp, constructResponse_Error, Handle_errs, hrun]
    simp [List.filterMap_append, List.filterMap_cons, List.filterMap_map, errorEntry,
      Outcome.cause, Function.comp_def, deleteErrorMessage, filterMap_never]
  · unfold Slice.len
    rw [hD]
    simp

/-- C5 on keys a, the empty key, b: the empty key fails resolution, a and b are deleted. -/
theorem Handle_isolates_resolution_failure_witness :
    (Handle sampleEnv (sampleOp [1, 4, 2])).req.Object =
        [{ Key := "a" }, { Key := "" }, { Key := "b" }] ∧
      (Handle sampleEnv (sampleOp [1, 4, 2])).resp.Error =
        some [{ Code := "ErrDeletingKey", Key := "",
                Message := "error deleting object: malformed key" }] ∧
      (Handle sampleEnv (sampleOp [1, 4, 2])).resp.Deleted.items =
        [{ Key := "a" }, { Key := "b" }] ∧
      (Handle sampleEnv (sampleOp [1, 4, 2])).resp.Deleted.len = 2 :=
  Handle_isolates_resolution_failure sampleEnv (sampleOp [1, 4, 2])
    [{ Key := "a" }] [{ Key := "b" }] { Key := "" }
    { text := "malformed key", isNotFound := false } (by decide) (by decide) (by decide)

/-! ## The calls `Handle` makes -/

/-- One iteration calls the store once if the key resolves, and not at all otherwise. -/
theorem handleObject_deleteCalls {σ : Type} (env : Env σ) (repoId : String) (quiet : Bool)
    (st : LoopState σ) (obj : serde.ObjectIdentifier) :
    deleteCalls (handleObject env repoId quiet st obj).trace =
      deleteCalls st.trace ++ (callOf env repoId obj).toList := by
  unfold handleObject callOf
  cases env.ResolvePath obj.Key with
  | error err => simp [deleteCalls, Event.deleteCall]
  | ok rp =>
    dsimp only
    cases (env.DeleteObject st.index repoId rp.Ref rp.Path).2 with
    | none => cases quiet <;> simp [deleteCalls, Event.deleteCall]
    | some err =>
      rcases err with ⟨t, nf⟩
      cases quiet <;> cases nf <;> simp [deleteCalls, Event.deleteCall]

/-- One iteration calls the resolver once, on the key. -/
theorem handleObject_resolveCalls {σ : Type} (env : Env σ) (repoId : String) (quiet : Bool)
    (st : LoopState σ) (obj : serde.ObjectIdentifier) :
    resolveCalls (handleObject env repoId quiet st obj).trace =
      resolveCalls st.trace ++ [obj.Key] := by
  unfold handleObject
  cases env.ResolvePath obj.Key with
  | error err => simp [resolveCalls, Event.resolveCall]
  | ok rp =>
    dsimp only
    cases (env.DeleteObject st.index repoId rp.Ref rp.Path).2 with
    | none => cases quiet <;> simp [resolveCalls, Event.resolveCall]
    | some err =>
      rcases err with ⟨t, nf⟩
      cases quiet <;> cases nf <;> simp [resolveCalls, Event.resolveCall]

/-- The loop calls the store once for each key that resolves, in request order. -/
theorem handleLoop_deleteCalls {σ : Type} (env : Env σ) (repoId : String) (quiet : Bool)
    (objects : List serde.ObjectIdentifier) (st : LoopState σ) :
    deleteCalls (handleLoop env repoId quiet st objects).trace =
      deleteCalls st.trace ++ objects.filterMap (callOf env repoId) := by
  induction objects generalizing st with
  | nil => simp [handleLoop]
  | cons obj rest ih =>
    rw [handleLoop_cons, ih, handleObject_deleteCalls]
    cases h : callOf env repoId obj <;> simp [List.filterMap_cons, h]

/-- The loop calls the resolver once for each key, in request order. -/
theorem handleLoop_resolveCalls {σ : Type} (env : Env σ) (repoId : String) (quiet : Bool)
    (objects : List serde.ObjectIdentifier) (st : LoopState σ) :
    resolveCalls (handleLoop env repoId quiet st objects).trace =
      resolveCalls st.trace ++ objects.map (fun obj => obj.Key) := by
  induction objects generalizing st with
  | nil => simp [handleLoop]
  | cons obj rest ih => rw [handleLoop_cons, ih, handleObject_resolveCalls]; simp

/-- The store calls of `Handle` are those owed to the keys the decoder left. -/
theorem Handle_deleteCalls {σ : Type} (env : Env σ) (o : RepoOperation σ) :
    deleteCalls (Handle env o).trace =
      (Handle env o).req.Object.filterMap (callOf env o.Repo.Id) := by
  unfold Handle
  dsimp only
  unfold deleteCalls
  rw [List.filterMap_append]
  have h := handleLoop_deleteCalls env o.Repo.Id
    (env.DecodeXMLBody o.Request.Body serde.Delete.zero).2.1.Quiet
    (env.DecodeXMLBody o.Request.Body serde.Delete.zero).2.1.Object
  unfold deleteCalls at h
  rw [h]
  cases (env.DecodeXMLBody o.Request.Body serde.Delete.zero).2.2 <;>
    simp [Event.deleteCall]

/-- The resolver calls of `Handle` are the keys the decoder left. -/
theorem Handle_resolveCalls {σ : Type} (env : Env σ) (o : RepoOperation σ) :
    resolveCalls (Handle env o).trace =
      (Handle env o).req.Object.map (fun obj => obj.Key) := by
  unfold Handle
  dsimp only
  unfold resolveCalls
  rw [List.filterMap_append]
  have h := handleLoop_resolveCalls env o.Repo.Id
    (env.DecodeXMLBody o.Request.Body serde.Delete.zero).2.1.Quiet
    (env.DecodeXMLBody o.Request.Body serde.Delete.zero).2.1.Object
  unfold resolveCalls at h
  rw [h]
  cases (env.DecodeXMLBody o.Request.Body serde.Delete.zero).2.2 <;>
    simp [Event.resolveCall]

/-- The store `Handle` leaves is the store after the keys the decoder left. -/
theorem Handle_index {σ : Type} (env : Env σ) (o : RepoOperation σ) :
    (Handle env o).index = storeAfter env o.Repo.Id o.Index (Handle env o).req.Object := by
  simp [Handle, handleLoop_index]

/-- Only failed keys owe an error entry. -/
theorem filterMap_errorEntry_filter (ps : List (serde.ObjectIdentifier × Outcome)) :
    ps.filterMap errorEntry = (ps.filter fun p => !p.2.succeeded).filterMap errorEntry := by
  induction ps with
  | nil => rfl
  | cons p rest ih =>
    rcases p with ⟨k, oc⟩
    cases oc <;>
      simp [List.filterMap_cons, List.filter_cons, errorEntry, Outcome.cause,
        Outcome.succeeded, ih]

/-! ## The fields of the result -/

/-- C6: in the result built by `Handle` the `Error` field is set exactly when the
accumulated error list is non-empty, and then holds that list; the `Deleted` field is set
exactly when the request is not quiet and at least one key was processed successfully; and
when the request is quiet the `Deleted` field is nil however many keys succeeded. -/
theorem Handle_result_fields {σ : Type} (env : Env σ) (o : RepoOperation σ) :
    ((Handle env o).resp.Error.isSome = true ↔ (Handle env o).errs ≠ []) ∧
      (Handle env o).resp.Error.items = (Handle env o).errs ∧
      ((Handle env o).resp.Deleted.isSome = true ↔
        ((Handle env o).req.Quiet = false ∧ 0 < succeededCount (runOutcomes env o))) ∧
      ((Handle env o).req.Quiet = true → (Handle env o).resp.Deleted = none) := by
  refine ⟨?_, ?_, ?_, ?_⟩
  · rw [Handle_resp, constructResponse_Error]
    by_cases h : (Handle env o).errs = [] <;> simp [h]
  · rw [Handle_resp, constructResponse_Error_items]
  · rw [Handle_resp, constructResponse_Deleted, Handle_responses]
    have hlen := length_filterMap_deletedEntry (runOutcomes env o)
    cases hq : (Handle env o).req.Quiet
    · by_cases h : (runOutcomes env o).filterMap deletedEntry = []
      · have h0 : succeededCount (runOutcomes env o) = 0 := by rw [← hlen, h]; rfl
        simp [h, h0]
      · have hpos : 0 < succeededCount (runOutcomes env o) := by
          rw [← hlen]
          exact List.length_pos.mpr h
        simp [h, hpos]
    · simp
  · intro hq
    rw [Handle_resp, constructResponse_Deleted, hq]
    simp

/-- C6 on a quiet request of five keys, three of which succeed and two of which fail. -/
theorem Handle_result_fields_witness :
    (Handle sampleEnv (sampleOp [0, 1, 4, 3, 1, 2])).resp.Error.isSome = true ∧
      succeededCount (runOutcomes sampleEnv (sampleOp [0, 1, 4, 3, 1, 2])) = 3 ∧
      (Handle sampleEnv (sampleOp [0, 1, 4, 3, 1, 2])).resp.Deleted = none :=
  ⟨(Handle_result_fields sampleEnv (sampleOp [0, 1, 4, 3, 1, 2])).1.mpr (by decide),
   by decide,
   (Handle_result_fields sampleEnv (sampleOp [0, 1, 4, 3, 1, 2])).2.2.2 (by decide)⟩

/-! ## Quiet requests -/

/-- C7: for a successfully decoded quiet request in which no key fails, every key
resolving and its store call returning success or not-found, the result has neither a
`Deleted` nor an `Error` field, whatever the number of keys. -/
theorem Handle_quiet_without_failure {σ : Type} (env : Env σ) (o : RepoOperation σ)
    (_hdec : (Handle env o).decodeErr = none)
    (hq : (Handle env o).req.Quiet = true)
    (hall : ∀ p ∈ runOutcomes env o, p.2.succeeded = true) :
    (Handle env o).resp = { Deleted := none, Error := none } := by
  have hE : (Handle env o).errs = [] := by
    apply List.eq_nil_of_length_eq_zero
    rw [Handle_errs, length_filterMap_errorEntry]
    unfold failedCount
    rw [List.countP_eq_zero]
    intro p hp
    simp [hall p hp]
  have h1 : (Handle env o).resp.Error = none := by
    rw [Handle_resp, constructResponse_Error, hE]
    simp
  have h2 : (Handle env o).resp.Deleted = none := by
    rw [Handle_resp, constructResponse_Deleted, hq]
    simp
  cases hr : (Handle env o).resp with
  | mk d e =>
    rw [hr] at h1 h2
    simp only at h1 h2
    rw [h1, h2]

/-- C7 on the quiet request of keys a, b, a: two deletions and one not-found. -/
theorem Handle_quiet_without_failure_witness :
    (Handle sampleEnv (sampleOp [0, 1, 2, 1])).req.Object.length = 3 ∧
      (Handle sampleEnv (sampleOp [0, 1, 2, 1])).resp = { Deleted := none, Error := none } :=
  ⟨by decide,
   Handle_quiet_without_failure sampleEnv (sampleOp [0, 1, 2, 1])
     (by decide) (by decide) (by decide)⟩

/-- C8: take two requests on the same repository and store whose decoded key lists are
equal, the first quiet and the second not. `Handle` builds the same `Error` field for
both, makes the same sequence of `Index.DeleteObject` calls and leaves the same store; the
quiet one has no `Deleted` field, and when exactly one of its keys fails its `Error` field
holds exactly the entry of that key. -/
theorem Handle_quiet_only_hides_successes {σ : Type} (env : Env σ)
    (o1 o2 : RepoOperation σ)
    (hrepo : o1.Repo.Id = o2.Repo.Id) (hidx : o1.Index = o2.Index)
    (hkeys : (Handle env o1).req.Object = (Handle env o2).req.Object)
    (hq1 : (Handle env o1).req.Quiet = true) (_hq2 : (Handle env o2).req.Quiet = false) :
    (Handle env o1).resp.Error = (Handle env o2).resp.Error ∧
      deleteCalls (Handle env o1).trace = deleteCalls (Handle env o2).trace ∧
      (Handle env o1).index = (Handle env o2).index ∧
      (Handle env o1).resp.Deleted = none ∧
      ∀ p, (runOutcomes env o1).filter (fun p => !p.2.succeeded) = [p] →
        ∃ err, p.2.cause = some err ∧
          (Handle env o1).resp.Error =
            some [{ Code := "ErrDeletingKey", Key := p.1.Key,
                    Message := "error deleting object: " ++ err.text }] := by
  have hkeys2 : (env.DecodeXMLBody o1.Request.Body serde.Delete.zero).2.1.Object =
      (env.DecodeXMLBody o2.Request.Body serde.Delete.zero).2.1.Object := hkeys
  have hrun : runOutcomes env o1 = runOutcomes env o2 := by
    unfold runOutcomes
    rw [hrepo, hidx, hkeys2]
  refine ⟨?_, ?_, ?_, ?_, ?_⟩
  · rw [Handle_resp, Handle_resp, constructResponse_Error, constructResponse_Error,
      Handle_errs, Handle_errs, hrun]
  · rw [Handle_deleteCalls, Handle_deleteCalls, hkeys, hrepo]
  · rw [Handle_index, Handle_index, hkeys, hrepo, hidx]
  · rw [Handle_resp, constructResponse_Deleted, hq1]
    simp
  · intro p hp
    have hp2 : p.2.succeeded = false := by
      have hmem : p ∈ (runOutcomes env o1).filter (fun p => !p.2.succeeded) := by
        rw [hp]; exact List.mem_singleton.mpr rfl
      simpa using (List.mem_filter.mp hmem).2
    rcases p with ⟨k, oc⟩
    cases oc with
    | resolveFailed err =>
      refine ⟨err, rfl, ?_⟩
      rw [Handle_resp, constructResponse_Error, Handle_errs, filterMap_errorEntry_filter, hp]
      simp [errorEntry, Outcome.cause, deleteErrorMessage]
    | storeFailed err =>
      refine ⟨err, rfl, ?_⟩
      rw [Handle_resp, constructResponse_Error, Handle_errs, filterMap_errorEntry_filter, hp]
      simp [errorEntry, Outcome.cause, deleteErrorMessage]
    | absent err => simp [Outcome.succeeded] at hp2
    | deleted => simp [Outcome.succeeded] at hp2

/-- C8 on the keys a, c, b, with and without the quiet flag: c fails in the store. -/
theorem Handle_quiet_only_hides_successes_witness :
    (Handle sampleEnv (sampleOp [0, 1, 3, 2])).resp.Error =
        (Handle sampleEnv (sampleOp [1, 3, 2])).resp.Error ∧
      deleteCalls (Handle sampleEnv (sampleOp [0, 1, 3, 2])).trace =
        deleteCalls (Handle sampleEnv (sampleOp [1, 3, 2])).trace ∧
      (Handle sampleEnv (sampleOp [0, 1, 3, 2])).index =
        (Handle sampleEnv (sampleOp [1, 3, 2])).index ∧
      (Handle sampleEnv (sampleOp [0, 1, 3, 2])).resp.Deleted = none ∧
      (Handle sampleEnv (sampleOp [0, 1, 3, 2])).resp.Error =
        some [{ Code := "ErrDeletingKey", Key := "c",
                Message := "error deleting object: store unavailable" }] := by
  have h := Handle_quiet_only_hides_successes sampleEnv (sampleOp [0, 1, 3, 2])
    (sampleOp [1, 3, 2]) rfl rfl (by decide) (by decide) (by decide)
  refine ⟨h.1, h.2.1, h.2.2.1, h.2.2.2.1, ?_⟩
  obtain ⟨err, herr, hE⟩ := h.2.2.2.2
    ({ Key := "c" }, Outcome.storeFailed { text := "store unavailable", isNotFound := false })
    (by decide)
  cases herr
  exact hE

/-! ## The empty request -/

/-- C9: for a successfully decoded request with no key, quiet or not, `Handle` calls
neither the resolver nor `Index.DeleteObject`, leaves the store as it was, and writes one
response, an empty result in which `Deleted` and `Error` are both nil. -/
theorem Handle_empty_request {σ : Type} (env : Env σ) (o : RepoOperation σ)
    (hdec : (Handle env o).decodeErr = none)
    (hkeys : (Handle env o).req.Object = []) :
    (Handle env o).resp = { Deleted := none, Error := none } ∧
      (Handle env o).trace =
        [Event.incr "delete_objects",
         Event.encodeResponse { Deleted := none, Error := none } StatusOK] ∧
      resolveCalls (Handle env o).trace = [] ∧
      deleteCalls (Handle env o).trace = [] ∧
      (Handle env o).index = o.Index := by
  have h1 : (env.DecodeXMLBody o.Request.Body serde.Delete.zero).2.2 = none := hdec
  have h2 : (env.DecodeXMLBody o.Request.Body serde.Delete.zero).2.1.Object = [] := hkeys
  refine ⟨?_, ?_, ?_, ?_, ?_⟩
  · simp only [Handle, h2, handleLoop, List.foldl_nil]
    cases (env.DecodeXMLBody o.Request.Body serde.Delete.zero).2.1.Quiet <;> rfl
  · simp only [Handle, h1, h2, handleLoop, List.foldl_nil]
    cases (env.DecodeXMLBody o.Request.Body serde.Delete.zero).2.1.Quiet <;> rfl
  · rw [Handle_resolveCalls, hkeys]; rfl
  · rw [Handle_deleteCalls, hkeys]; rfl
  · rw [Handle_index, hkeys]; rfl

/-- C9 on the empty body and on the body that only sets the quiet flag. -/
theorem Handle_empty_request_witness :
    (Handle sampleEnv (sampleOp [])).trace =
        [Event.incr "delete_objects",
         Event.encodeResponse { Deleted := none, Error := none } StatusOK] ∧
      (Handle sampleEnv (sampleOp [0])).req.Quiet = true ∧
      (Handle sampleEnv (sampleOp [0])).trace =
        [Event.incr "delete_objects",
         Event.encodeResponse { Deleted := none, Error := none } StatusOK] :=
  ⟨(Handle_empty_request sampleEnv (sampleOp []) (by decide) (by decide)).2.1,
   by decide,
   (Handle_empty_request sampleEnv (sampleOp [0]) (by decide) (by decide)).2.1⟩

/-! ## Required permissions -/

/-- C10: when the body of the request is read without error and decodes to the keys
k_1..k_n, `RequiredPermissions` returns no error and a list of exactly n permissions, the
i-th of which has action `DeleteObjectAction` and resource `ObjectArn(repoId, k_i)`: one
per key, in request order, duplicates kept. The result is the same in every environment
with the same decoder, whatever its resolver and its store. -/
theorem RequiredPermissions_of_decoded {σ : Type} (env : Env σ) (penv : PermEnv)
    (request : Request) (repoId : String)
    (hread : (ioutilReadAll request.Body).2.2 = none)
    (hdec : (env.DecodeXMLBody (bytesNewReader (ioutilReadAll request.Body).2.1)
              serde.Delete.zero).2.2 = none) :
    (RequiredPermissions env penv request repoId).2.2 = none ∧
      (RequiredPermissions env penv request repoId).2.1 =
        some ((env.DecodeXMLBody (bytesNewReader (ioutilReadAll request.Body).2.1)
                serde.Delete.zero).2.1.Object.map fun k =>
          { Action := penv.DeleteObjectAction, Resource := penv.ObjectArn repoId k.Key }) ∧
      (RequiredPermissions env penv request repoId).2.1.len =
        (env.DecodeXMLBody (bytesNewReader (ioutilReadAll request.Body).2.1)
          serde.Delete.zero).2.1.Object.length ∧
      (∀ (i : Nat) (k : serde.ObjectIdentifier),
        (env.DecodeXMLBody (bytesNewReader (ioutilReadAll request.Body).2.1)
          serde.Delete.zero).2.1.Object[i]? = some k →
        (RequiredPermissions env penv request repoId).2.1.items[i]? =
          some { Action := penv.DeleteObjectAction,
                 Resource := penv.ObjectArn repoId k.Key }) ∧
      ∀ (τ : Type) (env2 : Env τ), env2.DecodeXMLBody = env.DecodeXMLBody →
        RequiredPermissions env2 penv request repoId =
          RequiredPermissions env penv request repoId := by
  have hperms : (RequiredPermissions env penv request repoId).2 =
      (some ((env.DecodeXMLBody (bytesNewReader (ioutilReadAll request.Body).2.1)
                serde.Delete.zero).2.1.Object.map fun k =>
          ({ Action := penv.DeleteObjectAction,
             Resource := penv.ObjectArn repoId k.Key } : permissions.Permission)), none) := by
    unfold RequiredPermissions
    simp only [hread, hdec]
  refine ⟨?_, ?_, ?_, ?_, ?_⟩
  · rw [hperms]
  · rw [hperms]
  · rw [hperms]; simp [Slice.len, Slice.items]
  · intro i k hk
    rw [hperms]
    simp [Slice.items, List.getElem?_map, hk]
  · intro τ env2 h
    unfold RequiredPermissions
    rw [h]

/-- C10 on a body of the keys a, the empty key, c, a, b with the quiet flag set. -/
theorem RequiredPermissions_of_decoded_witness :
    (RequiredPermissions sampleEnv samplePermEnv
        { Body := bytesNewReader [0, 1, 4, 3, 1, 2] } "repo").2 =
      (some [{ Action := "delete-object", Resource := "repo/a" },
             { Action := "delete-object", Resource := "repo/" },
             { Action := "delete-object", Resource := "repo/c" },
             { Action := "delete-object", Resource := "repo/a" },
             { Action := "delete-object", Resource := "repo/b" }], none) := by
  have h := RequiredPermissions_of_decoded sampleEnv samplePermEnv
    { Body := bytesNewReader [0, 1, 4, 3, 1, 2] } "repo" (by decide) (by decide)
  exact Prod.ext (h.2.1.trans (by decide)) h.1

/-! ## Failure of `RequiredPermissions` -/

/-- `RequiredPermissions` returns an error exactly when the read or the decoding fails. -/
theorem RequiredPermissions_fails_iff {σ : Type} (env : Env σ) (penv : PermEnv)
    (request : Request) (repoId : String) :
    (RequiredPermissions env penv request repoId).2.2 ≠ none ↔
      ((ioutilReadAll request.Body).2.2 ≠ none ∨
        (env.DecodeXMLBody (bytesNewReader (ioutilReadAll request.Body).2.1)
          serde.Delete.zero).2.2 ≠ none) := by
  cases hread : (ioutilReadAll request.Body).2.2 with
  | some e =>
    unfold RequiredPermissions
    simp only [hread]
    simp
  | none =>
    cases hdec : (env.DecodeXMLBody (bytesNewReader (ioutilReadAll request.Body).2.1)
        serde.Delete.zero).2.2 with
    | some e =>
      unfold RequiredPermissions
      simp only [hread, hdec]
      simp
    | none =>
      unfold RequiredPermissions
      simp only [hread, hdec]
      simp

/-- C11, as the code has it: `RequiredPermissions` fails exactly when reading the body
fails or the bytes read do not decode. The error it then returns is the error of the read,
or else the error of the decoder, as it received it: the method attaches no bad-request
code of its own. In that case the permission list is nil, whatever the decoder had decoded
before it failed. -/
theorem RequiredPermissions_failure {σ : Type} (env : Env σ) (penv : PermEnv)
    (request : Request) (repoId : String) :
    ((RequiredPermissions env penv request repoId).2.2 ≠ none ↔
        ((ioutilReadAll request.Body).2.2 ≠ none ∨
          (env.DecodeXMLBody (bytesNewReader (ioutilReadAll request.Body).2.1)
            serde.Delete.zero).2.2 ≠ none)) ∧
      (∀ e, (ioutilReadAll request.Body).2.2 = some e →
        (RequiredPermissions env penv request repoId).2 = (none, some e)) ∧
      (∀ e, (ioutilReadAll request.Body).2.2 = none →
        (env.DecodeXMLBody (bytesNewReader (ioutilReadAll request.Body).2.1)
          serde.Delete.zero).2.2 = some e →
        (RequiredPermissions env penv request repoId).2 = (none, some e)) ∧
      ((RequiredPermissions env penv request repoId).2.2 ≠ none →
        (RequiredPermissions env penv request repoId).2.1 = none) := by
  cases hread : (ioutilReadAll request.Body).2.2 with
  | some e =>
    have h : (RequiredPermissions env penv request repoId).2 = (none, some e) := by
      unfold RequiredPermissions
      simp only [hread]
    refine ⟨?_, ?_, ?_, ?_⟩
    · rw [h]; simp
    · intro e2 he2; cases he2; exact h
    · intro e2 he2; cases he2
    · intro _; rw [h]
  | none =>
    cases hdec : (env.DecodeXMLBody (bytesNewReader (ioutilReadAll request.Body).2.1)
        serde.Delete.zero).2.2 with
    | some e =>
      have h : (RequiredPermissions env penv request repoId).2 = (none, some e) := by
        unfold RequiredPermissions
        simp only [hread, hdec]
      refine ⟨?_, ?_, ?_, ?_⟩
      · rw [h]; simp
      · intro e2 he2; cases he2
      · intro e2 _ he2; cases he2; exact h
      · intro _; rw [h]
    | none =>
      have h : (RequiredPermissions env penv request repoId).2.2 = none := by
        unfold RequiredPermissions
        simp only [hread, hdec]
      refine ⟨?_, ?_, ?_, ?_⟩
      · rw [h]; simp
      · intro e2 he2; cases he2
      · intro e2 _ he2; cases he2
      · intro hne; exact absurd h hne

/-- C11 on a body whose stream breaks after one byte, and on a body with a syntax error
after one key: the stream's error and the decoder's error come back as they are. -/
theorem RequiredPermissions_failure_witness :
    (RequiredPermissions sampleEnv samplePermEnv
        { Body := { pending := [1],
                    fault := some { text := "connection reset by peer", isNotFound := false },
                    closed := false } } "repo").2 =
        (none, some { text := "connection reset by peer", isNotFound := false }) ∧
      (RequiredPermissions sampleEnv samplePermEnv
        { Body := bytesNewReader [1, 9] } "repo").2 =
        (none, some { text := "XML syntax error", isNotFound := false }) :=
  ⟨(RequiredPermissions_failure sampleEnv samplePermEnv
      { Body := { pending := [1],
                  fault := some { text := "connection reset by peer", isNotFound := false },
                  closed := false } } "repo").2.1 _ rfl,
   (RequiredPermissions_failure sampleEnv samplePermEnv
      { Body := bytesNewReader [1, 9] } "repo").2.2.1 _ rfl (by decide)⟩

/-- C11 as stated does not hold: the failures of `RequiredPermissions` are not signalled
by one bad-request error. A broken stream and a syntax error give two different errors,
each the cause itself, so no single error value is returned on every failure. -/
theorem RequiredPermissions_error_is_not_one_bad_request :
    (RequiredPermissions sampleEnv samplePermEnv
        { Body := { pending := [1],
                    fault := some { text := "connection reset by peer", isNotFound := false },
                    closed := false } } "repo").2.2 =
        some { text := "connection reset by peer", isNotFound := false } ∧
      (RequiredPermissions sampleEnv samplePermEnv
        { Body := bytesNewReader [1, 9] } "repo").2.2 =
        some { text := "XML syntax error", isNotFound := false } ∧
      ¬ ∃ badRequest : GoError, ∀ request : Request,
          (RequiredPermissions sampleEnv samplePermEnv request "repo").2.2 ≠ none →
          (RequiredPermissions sampleEnv samplePermEnv request "repo").2.2 =
            some badRequest := by
  refine ⟨by decide, by decide, ?_⟩
  rintro ⟨badRequest, h⟩
  have h1 := h { Body := { pending := [1],
                           fault := some { text := "connection reset by peer",
                                           isNotFound := false },
                           closed := false } } (by decide)
  have h2 := h { Body := bytesNewReader [1, 9] } (by decide)
  have e1 : (RequiredPermissions sampleEnv samplePermEnv
      { Body := { pending := [1],
                  fault := some { text := "connection reset by peer", isNotFound := false },
                  closed := false } } "repo").2.2 =
      some { text := "connection reset by peer", isNotFound := false } := by decide
  have e2 : (RequiredPermissions sampleEnv samplePermEnv
      { Body := bytesNewReader [1, 9] } "repo").2.2 =
      some { text := "XML syntax error", isNotFound := false } := by decide
  have hsame : (some { text := "connection reset by peer", isNotFound := false } :
      Option GoError) = some { text := "XML syntax error", isNotFound := false } :=
    (e1.symm.trans h1).trans (e2.symm.trans h2).symm
  exact absurd hsame (by decide)

/-! ## A key that fails -/

/-- The outcomes of a request around one of its key occurrences. -/
theorem runOutcomes_split {σ : Type} (env : Env σ) (o : RepoOperation σ)
    (pre post : List serde.ObjectIdentifier) (obj : serde.ObjectIdentifier)
    (hobj : (Handle env o).req.Object = pre ++ obj :: post) :
    runOutcomes env o =
      keyOutcomes env o.Repo.Id o.Index pre ++
        (obj, (outcomeAt env o.Repo.Id (storeAfter env o.Repo.Id o.Index pre) obj).1) ::
        keyOutcomes env o.Repo.Id (storeAfter env o.Repo.Id o.Index (pre ++ [obj])) post := by
  have hobj2 : (env.DecodeXMLBody o.Request.Body serde.Delete.zero).2.1.Object =
      pre ++ obj :: post := hobj
  unfold runOutcomes
  rw [hobj2, keyOutcomes_append, storeAfter_append]
  simp [keyOutcomes, storeAfter]

/-- C12: take a key occurrence of the request whose resolution fails with cause e, or which
resolves but for which `Index.DeleteObject`, called on the store as the keys before it left
it, fails with a cause e other than not-found. `Handle` records for it exactly one error
entry, with code `ErrDeletingKey`, the key unchanged and the message
`error deleting object: ` followed by the text of e, in its place among the error entries of
the other keys; and the `Deleted` field holds the successes of the other keys only. -/
theorem Handle_records_failure {σ : Type} (env : Env σ) (o : RepoOperation σ)
    (pre post : List serde.ObjectIdentifier) (obj : serde.ObjectIdentifier) (e : GoError)
    (hobj : (Handle env o).req.Object = pre ++ obj :: post)
    (hfail : env.ResolvePath obj.Key = .error e ∨
      ∃ rp, env.ResolvePath obj.Key = .ok rp ∧
        (env.DeleteObject (storeAfter env o.Repo.Id o.Index pre)
          o.Repo.Id rp.Ref rp.Path).2 = some e ∧ e.isNotFound = false) :
    (Handle env o).resp.Error = some
        ((keyOutcomes env o.Repo.Id o.Index pre).filterMap errorEntry ++
          { Code := "ErrDeletingKey", Key := obj.Key,
            Message := "error deleting object: " ++ e.text } ::
          (keyOutcomes env o.Repo.Id
            (storeAfter env o.Repo.Id o.Index (pre ++ [obj])) post).filterMap errorEntry) ∧
      (Handle env o).resp.Deleted.items =
        (if (Handle env o).req.Quiet then []
         else (keyOutcomes env o.Repo.Id o.Index pre).filterMap deletedEntry ++
          (keyOutcomes env o.Repo.Id
            (storeAfter env o.Repo.Id o.Index (pre ++ [obj])) post).filterMap deletedEntry) := by
  have hoc : (outcomeAt env o.Repo.Id (storeAfter env o.Repo.Id o.Index pre) obj).1.cause
        = some e ∧
      (outcomeAt env o.Repo.Id (storeAfter env o.Repo.Id o.Index pre) obj).1.succeeded
        = false := by
    rcases hfail with h | ⟨rp, h, hd, hnf⟩
    · simp [outcomeAt, h, Outcome.cause, Outcome.succeeded]
    · simp [outcomeAt, h, hd, Outcome.ofStore, hnf, Outcome.cause, Outcome.succeeded]
  have hrun := runOutcomes_split env o pre post obj hobj
  constructor
  · rw [Handle_resp, constructResponse_Error, Handle_errs, hrun]
    simp [List.filterMap_append, List.filterMap_cons, errorEntry, hoc.1, deleteErrorMessage]
  · rw [Handle_resp, constructResponse_Deleted_items, Handle_responses, hrun]
    cases (Handle env o).req.Quiet <;>
      simp [List.filterMap_append, List.filterMap_cons, deletedEntry, hoc.2]

/-- C12 on the request of keys a, the empty key, c, a, b: the empty key fails resolution
and the store fails on c. -/
theorem Handle_records_failure_witness :
    (Handle sampleEnv (sampleOp [1, 4, 3, 1, 2])).resp.Error =
        some [{ Code := "ErrDeletingKey", Key := "",
                Message := "error deleting object: malformed key" },
              { Code := "ErrDeletingKey", Key := "c",
                Message := "error deleting object: store unavailable" }] ∧
      (Handle sampleEnv (sampleOp [1, 4, 3, 1, 2])).resp.Deleted.items =
        [{ Key := "a" }, { Key := "a" }, { Key := "b" }] ∧
      (Handle sampleEnv (sampleOp [4])).resp.Error =
        some [{ Code := "ErrDeletingKey", Key := "",
                Message := "error deleting object: malformed key" }] := by
  have h := Handle_records_failure sampleEnv (sampleOp [1, 4, 3, 1, 2])
    [{ Key := "a" }, { Key := "" }] [{ Key := "a" }, { Key := "b" }] { Key := "c" }
    { text := "store unavailable", isNotFound := false } (by decide)
    (Or.inr ⟨{ Ref := "master", Path := "c" }, rfl, by decide, rfl⟩)
  have h2 := Handle_records_failure sampleEnv (sampleOp [4]) [] [] { Key := "" }
    { text := "malformed key", isNotFound := false } (by decide) (Or.inl rfl)
  exact ⟨h.1.trans (by decide), h.2.trans (by decide), h2.1.trans (by decide)⟩

/-! ## The sequence of store calls -/

/-- C13: for a successfully decoded request the calls `Handle` makes to
`Index.DeleteObject` are, in request order, one call on the repository with the resolved
reference and path for each key occurrence that resolves, and none for a key that does not
resolve. The sequence is the same whatever the store answers, so an error of the store is
not retried and a failure at one key leaves the calls for the later keys as they are. -/
theorem Handle_store_calls {σ : Type} (env : Env σ) (o : RepoOperation σ)
    (_hdec : (Handle env o).decodeErr = none) :
    deleteCalls (Handle env o).trace =
        (Handle env o).req.Object.filterMap (callOf env o.Repo.Id) ∧
      (∀ obj rp, env.ResolvePath obj.Key = .ok rp →
        callOf env o.Repo.Id obj = some (o.Repo.Id, rp.Ref, rp.Path)) ∧
      (∀ obj e, env.ResolvePath obj.Key = .error e → callOf env o.Repo.Id obj = none) ∧
      (∀ pre obj post, (Handle env o).req.Object = pre ++ obj :: post →
        deleteCalls (Handle env o).trace =
          pre.filterMap (callOf env o.Repo.Id) ++ (callOf env o.Repo.Id obj).toList ++
            post.filterMap (callOf env o.Repo.Id)) ∧
      ∀ env2 : Env σ, env2.DecodeXMLBody = env.DecodeXMLBody →
        env2.ResolvePath = env.ResolvePath →
        deleteCalls (Handle env2 o).trace = deleteCalls (Handle env o).trace := by
  refine ⟨Handle_deleteCalls env o, ?_, ?_, ?_, ?_⟩
  · intro obj rp h
    simp [callOf, h]
  · intro obj e h
    simp [callOf, h]
  · intro pre obj post h
    rw [Handle_deleteCalls, h]
    cases hc : callOf env o.Repo.Id obj <;>
      simp [List.filterMap_append, List.filterMap_cons, hc]
  · intro env2 hd hr
    rw [Handle_deleteCalls, Handle_deleteCalls]
    have hreq : (Handle env2 o).req = (Handle env o).req := by
      simp [Handle, hd]
    have hcall : callOf env2 o.Repo.Id = callOf env o.Repo.Id := by
      funext obj
      simp [callOf, hr]
    rw [hreq, hcall]

/-- C13 on the request of keys a, the empty key, c, a, b: four calls, none for the empty
key, one for c on which the store fails, and the calls for the keys after it. -/
theorem Handle_store_calls_witness :
    deleteCalls (Handle sampleEnv (sampleOp [1, 4, 3, 1, 2])).trace =
      [("repo", "master", "a"), ("repo", "master", "c"), ("repo", "master", "a"),
       ("repo", "master", "b")] :=
  (Handle_store_calls sampleEnv (sampleOp [1, 4, 3, 1, 2]) (by decide)).1.trans (by decide)

/-! ## The two lists of the result -/

/-- The outcomes of a list of keys are in the order of the keys, one for each. -/
theorem keyOutcomes_keys {σ : Type} (env : Env σ) (repoId : String)
    (objects : List serde.ObjectIdentifier) (s : σ) :
    (keyOutcomes env repoId s objects).map Prod.fst = objects := by
  induction objects generalizing s with
  | nil => rfl
  | cons obj rest ih => simp [keyOutcomes, ih]

/-- The success entries are the keys of the succeeded occurrences. -/
theorem filterMap_deletedEntry_filter (ps : List (serde.ObjectIdentifier × Outcome)) :
    ps.filterMap deletedEntry =
      (ps.filter fun p => p.2.succeeded).map fun p => ({ Key := p.1.Key } : serde.Deleted) := by
  induction ps with
  | nil => rfl
  | cons p rest ih =>
    rcases p with ⟨k, oc⟩
    cases oc <;>
      simp [List.filterMap_cons, List.filter_cons, deletedEntry, Outcome.succeeded, ih]

/-- C14: for a successfully decoded non-quiet request, with the outcomes of the key
occurrences taken in request order, the `Deleted` list is the keys of the occurrences that
resolved and whose store call returned success or not-found, in that order, and the `Error`
list is the entries of all the other occurrences, in that order. Each occurrence is in one
of the two groups and gives one entry, so the two lists together have as many entries as
the request has keys. -/
theorem Handle_lists_partition {σ : Type} (env : Env σ) (o : RepoOperation σ)
    (_hdec : (Handle env o).decodeErr = none)
    (hq : (Handle env o).req.Quiet = false) :
    (runOutcomes env o).map Prod.fst = (Handle env o).req.Object ∧
      (Handle env o).resp.Deleted.items =
        ((runOutcomes env o).filter fun p => p.2.succeeded).map
          (fun p => ({ Key := p.1.Key } : serde.Deleted)) ∧
      (Handle env o).resp.Error.items =
        ((runOutcomes env o).filter fun p => !p.2.succeeded).filterMap errorEntry ∧
      (Handle env o).resp.Deleted.len = succeededCount (runOutcomes env o) ∧
      (Handle env o).resp.Error.len = failedCount (runOutcomes env o) ∧
      succeededCount (runOutcomes env o) + failedCount (runOutcomes env o) =
        (Handle env o).req.Object.length := by
  have hD : (Handle env o).resp.Deleted.items =
      (runOutcomes env o).filterMap deletedEntry := by
    rw [Handle_resp, constructResponse_Deleted_items, Handle_responses, hq]
    simp
  have hE : (Handle env o).resp.Error.items =
      (runOutcomes env o).filterMap errorEntry := by
    rw [Handle_resp, constructResponse_Error_items, Handle_errs]
  refine ⟨?_, ?_, ?_, ?_, ?_, ?_⟩
  · exact keyOutcomes_keys env o.Repo.Id _ o.Index
  · rw [hD, filterMap_deletedEntry_filter]
  · rw [hE, ← filterMap_errorEntry_filter]
  · unfold Slice.len
    rw [hD, length_filterMap_deletedEntry]
  · unfold Slice.len
    rw [hE, length_filterMap_errorEntry]
  · rw [succeededCount_add_failedCount, length_runOutcomes]

/-- C14 on the request of keys a, the empty key, c, a, b: three keys in `Deleted`, the
key a twice, and two in `Error`. -/
theorem Handle_lists_partition_witness :
    (Handle sampleEnv (sampleOp [1, 4, 3, 1, 2])).resp.Deleted.items =
        [{ Key := "a" }, { Key := "a" }, { Key := "b" }] ∧
      (Handle sampleEnv (sampleOp [1, 4, 3, 1, 2])).resp.Error.items =
        [{ Code := "ErrDeletingKey", Key := "",
           Message := "error deleting object: malformed key" },
         { Code := "ErrDeletingKey", Key := "c",
           Message := "error deleting object: store unavailable" }] := by
  have h := Handle_lists_partition sampleEnv (sampleOp [1, 4, 3, 1, 2])
    (by decide) (by decide)
  exact ⟨h.2.1.trans (by decide), h.2.2.1.trans (by decide)⟩

/-! ## `Handle` after `RequiredPermissions` -/

/-- C15: when `RequiredPermissions` succeeds it leaves as request body a fresh stream over
exactly the bytes it read, from which the same bytes can be read again. `Handle`, run
afterwards on the request as it was left, decodes without error the key list and quiet flag
that `RequiredPermissions` decoded, and the keys it processes, those it hands to the
resolver, are in the same order the keys for which the permissions were derived. -/
theorem Handle_after_RequiredPermissions {σ : Type} (env : Env σ) (penv : PermEnv)
    (request : Request) (repoId : String) (o : RepoOperation σ)
    (hok : (RequiredPermissions env penv request repoId).2.2 = none)
    (hreq : o.Request = (RequiredPermissions env penv request repoId).1) :
    (RequiredPermissions env penv request repoId).1.Body =
        bytesNewReader (ioutilReadAll request.Body).2.1 ∧
      (ioutilReadAll (RequiredPermissions env penv request repoId).1.Body).2 =
        ((ioutilReadAll request.Body).2.1, none) ∧
      (Handle env o).decodeErr = none ∧
      (Handle env o).req =
        (env.DecodeXMLBody (bytesNewReader (ioutilReadAll request.Body).2.1)
          serde.Delete.zero).2.1 ∧
      (RequiredPermissions env penv request repoId).2.1 =
        some ((Handle env o).req.Object.map fun k =>
          { Action := penv.DeleteObjectAction, Resource := penv.ObjectArn repoId k.Key }) ∧
      resolveCalls (Handle env o).trace =
        (Handle env o).req.Object.map (fun k => k.Key) := by
  have hf := RequiredPermissions_fails_iff env penv request repoId
  have hread : (ioutilReadAll request.Body).2.2 = none := by
    by_contra h
    exact (hf.mpr (Or.inl h)) hok
  have hdec : (env.DecodeXMLBody (bytesNewReader (ioutilReadAll request.Body).2.1)
      serde.Delete.zero).2.2 = none := by
    by_contra h
    exact (hf.mpr (Or.inr h)) hok
  have hbody : (RequiredPermissions env penv request repoId).1.Body =
      bytesNewReader (ioutilReadAll request.Body).2.1 := by
    unfold RequiredPermissions
    simp only [hread, hdec]
  have hperm : (RequiredPermissions env penv request repoId).2.1 =
      some ((env.DecodeXMLBody (bytesNewReader (ioutilReadAll request.Body).2.1)
        serde.Delete.zero).2.1.Object.map fun k =>
          ({ Action := penv.DeleteObjectAction,
             Resource := penv.ObjectArn repoId k.Key } : permissions.Permission)) := by
    unfold RequiredPermissions
    simp only [hread, hdec]
  have hH : (Handle env o).req =
      (env.DecodeXMLBody (bytesNewReader (ioutilReadAll request.Body).2.1)
        serde.Delete.zero).2.1 := by
    show (env.DecodeXMLBody o.Request.Body serde.Delete.zero).2.1 = _
    rw [hreq, hbody]
  refine ⟨hbody, ?_, ?_, hH, ?_, Handle_resolveCalls env o⟩
  · rw [hbody]; rfl
  · show (env.DecodeXMLBody o.Request.Body serde.Delete.zero).2.2 = none
    rw [hreq, hbody]
    exact hdec
  · rw [hH]; exact hperm

/-- C15 on a body of the keys a, the empty key, b with the quiet flag set. -/
theorem Handle_after_RequiredPermissions_witness :
    (RequiredPermissions sampleEnv samplePermEnv
        { Body := bytesNewReader [0, 1, 4, 2] } "repo").2.1 =
        some [{ Action := "delete-object", Resource := "repo/a" },
              { Action := "delete-object", Resource := "repo/" },
              { Action := "delete-object", Resource := "repo/b" }] ∧
      resolveCalls (Handle sampleEnv
        { Request := (RequiredPermissions sampleEnv samplePermEnv
            { Body := bytesNewReader [0, 1, 4, 2] } "repo").1,
          Repo := { Id := "repo" }, Index := ["a", "b"] }).trace = ["a", "", "b"] := by
  have h := Handle_after_RequiredPermissions sampleEnv samplePermEnv
    { Body := bytesNewReader [0, 1, 4, 2] } "repo"
    { Request := (RequiredPermissions sampleEnv samplePermEnv
        { Body := bytesNewReader [0, 1, 4, 2] } "repo").1,
      Repo := { Id := "repo" }, Index := ["a", "b"] } (by decide) rfl
  exact ⟨h.2.2.2.2.1.trans (by decide), h.2.2.2.2.2.trans (by decide)⟩

end Gateway
